import Mathlib

/-!
Verification of the scry-mcp core against its natural-language specification.

The development shallowly embeds the Rust sources:
* `src/board.rs` — board data model, name validation, HTML escaping, filename
  sanitization;
* `src/python.rs` — the Python sandbox construction (blocked builtins and
  modules) and the outcome shape of `execute_python` / `run_python`;
* `src/render.rs` — `svg_to_png`, treated as an oracle
  `String → Except String (List Nat)` (the rasterizer itself is the external
  `resvg`/`usvg` stack);
* `src/server.rs` — the `whiteboard` tool-call coordinator and
  `whiteboard_list`;
* `supabase/functions/scry/rhai-sandbox/src/lib.rs` — the Rhai sandbox's
  resource-limit constants.

Machine integers are modelled as `Nat` (no arithmetic in the embedded code can
overflow at the modelled call sites), byte buffers as `List Nat`, timestamps
(`DateTime<Utc>`) as `Nat`, and the shared `Py<PyDict>` namespace as a handle
identity together with an abstract logical contents state, mutated in place by
the interpreter. Fallible operations return `Except`.
-/

namespace Scry

/-- Timestamps (`chrono::DateTime<Utc>`) are modelled as naturals; the embedded
code only stores and copies them. -/
abbrev Timestamp := Nat

/-- Model of the `Py<PyDict>` namespace owned by a board. `id` models the
handle identity: `clone_ref` yields another handle with the same `id`, a
shared view of one dict. `contents` models the logical state of that shared
dict; a script executed by `py.run` against the dict mutates `contents` in
place — also when the script subsequently fails, so partial assignments made
before an exception persist. Python values are external, so the contents are
an abstract state token, not a binding map. -/
structure PyNamespace where
  id : Nat
  contents : Nat
deriving DecidableEq

/-- `Snapshot` from `src/board.rs`: an immutable `(svg, png, timestamp)`
triple. PNG bytes are modelled as `List Nat`. -/
structure Snapshot where
  svg : String
  png : List Nat
  timestamp : Timestamp
deriving DecidableEq

/-- `Board` from `src/board.rs`. The `namespace` field is renamed `pyns`
because `namespace` is a Lean keyword. -/
structure Board where
  name : String
  width : Nat
  height : Nat
  svg : String
  png : List Nat
  pyns : PyNamespace
  created_at : Timestamp
  updated_at : Timestamp
  history : List Snapshot
deriving DecidableEq

/-- `BoardEventType` from `src/board.rs`. -/
inductive BoardEventType where
  | Created
  | Updated
deriving DecidableEq

/-- `BoardEvent` from `src/board.rs`. -/
structure BoardEvent where
  board_name : String
  event_type : BoardEventType
deriving DecidableEq

/-- The board map of `AppState` (`RwLock<HashMap<String, Board>>`), modelled
as an association list; the gallery address and output directory are I/O
configuration and are not modelled (the coordinator paths that depend on them
only add text lines to the response header). -/
structure AppState where
  boards : List (String × Board)
deriving DecidableEq

/-- `HashMap::contains_key` / `HashMap::get` on the association-list model. -/
def findBoard (st : AppState) (name : String) : Option Board :=
  (st.boards.find? (fun p => p.1 = name)).map (·.2)

/-- `HashMap::insert` for a key known to be absent (the only insertion site,
inside get-or-create, runs under the write lock after a negative
`contains_key`). -/
def insertBoard (st : AppState) (name : String) (b : Board) : AppState :=
  ⟨st.boards ++ [(name, b)]⟩

/-- `HashMap::get_mut` followed by in-place mutation: apply `f` to the board
bound to `name`, leave every other entry unchanged. -/
def updateBoard (st : AppState) (name : String) (f : Board → Board) : AppState :=
  ⟨st.boards.map (fun p => if p.1 = name then (p.1, f p.2) else p)⟩

/-! ### `src/board.rs` — codec functions -/

/-- `MAX_NAME_LEN` from `src/board.rs`. -/
def MAX_NAME_LEN : Nat := 128

/-- Rust `str::len` counts UTF-8 bytes. -/
def rustLen (s : String) : Nat := s.utf8ByteSize

/-- Rust `str::contains(char)`: some character of the string equals `c`. -/
def containsChar (s : String) (c : Char) : Bool := s.data.contains c

/-- Rust `str::starts_with(char)`: the first character equals `c`. -/
def startsWithChar (s : String) (c : Char) : Bool := s.data.head? == some c

/-- Rust `str::ends_with(char)`: the last character equals `c`. -/
def endsWithChar (s : String) (c : Char) : Bool := s.data.getLast? == some c

/-- `validate_board_name` from `src/board.rs`: the if-chain is translated
clause for clause, including the exact error strings. -/
def validate_board_name (name : String) : Except String Unit :=
  if name = "" then
    .error "Board name cannot be empty"
  else if rustLen name > MAX_NAME_LEN then
    .error s!"Board name too long ({rustLen name} bytes, max {MAX_NAME_LEN})"
  else if containsChar name '/' || containsChar name '\x00'
      || containsChar name '\n' || containsChar name '\r' then
    .error "Board name cannot contain /, null, or newline characters"
  else if startsWithChar name '.' || startsWithChar name ' '
      || endsWithChar name ' ' then
    .error "Board name cannot start with '.' or have leading/trailing spaces"
  else
    .ok ()

/-- Rust `String::replace(char, &str)` for a single-character pattern:
every occurrence of `c` becomes `rep`, all other characters are kept. -/
def replaceChar (c : Char) (rep : List Char) (s : List Char) : List Char :=
  s.flatMap (fun x => if x = c then rep else [x])

/-- `html_escape` from `src/board.rs` on the character-list level: the five
`replace` passes in source order (`&`, `<`, `>`, `"`, `'`). -/
def html_escape_list (s : List Char) : List Char :=
  replaceChar '\'' "&#x27;".toList
    (replaceChar '"' "&quot;".toList
      (replaceChar '>' "&gt;".toList
        (replaceChar '<' "&lt;".toList
          (replaceChar '&' "&amp;".toList s))))

/-- `html_escape` from `src/board.rs`. -/
def html_escape (s : String) : String :=
  ⟨html_escape_list s.data⟩

/-- The character class kept by `sanitize_filename`
(`'A'..='Z' | 'a'..='z' | '0'..='9' | '.' | '_' | '-'`). -/
def keepChar (c : Char) : Bool :=
  ('A' ≤ c && c ≤ 'Z') || ('a' ≤ c && c ≤ 'z') || ('0' ≤ c && c ≤ '9')
    || c = '.' || c = '_' || c = '-'

/-- `sanitize_filename` from `src/board.rs`: `name.chars().map(..).collect()`
— a per-character map over the codepoints, keeping `[A-Za-z0-9._-]` and
replacing every other character with `'_'`. -/
def sanitize_filename (name : String) : String :=
  ⟨name.data.map (fun c => if keepChar c then c else '_')⟩

/-! ### Specification-side definitions for the codec claims -/

/-- Name rules as worded in §3 of the spec: non-empty, at most 128 bytes,
no `/`, NUL, CR or LF, no leading `.`, no leading or trailing space. -/
def specNameRules (s : String) : Prop :=
  s ≠ "" ∧ rustLen s ≤ 128
    ∧ containsChar s '/' = false ∧ containsChar s '\x00' = false
    ∧ containsChar s '\r' = false ∧ containsChar s '\n' = false
    ∧ startsWithChar s '.' = false
    ∧ startsWithChar s ' ' = false ∧ endsWithChar s ' ' = false

instance (s : String) : Decidable (specNameRules s) := by
  unfold specNameRules; infer_instance

/-- UTF-8 encoding of one codepoint as its byte sequence (1–4 bytes). -/
def utf8EncodeChar (c : Char) : List Nat :=
  let n := c.toNat
  if n < 128 then [n]
  else if n < 2048 then [192 + n / 64, 128 + n % 64]
  else if n < 65536 then [224 + n / 4096, 128 + (n / 64) % 64, 128 + n % 64]
  else [240 + n / 262144, 128 + (n / 4096) % 64, 128 + (n / 64) % 64,
    128 + n % 64]

/-- The `[A-Za-z0-9._-]` class on a single byte value. -/
def keepByte (b : Nat) : Bool :=
  (65 ≤ b && b ≤ 90) || (97 ≤ b && b ≤ 122) || (48 ≤ b && b ≤ 57)
    || b = 46 || b = 95 || b = 45

/-- Sanitization as the claim words it (for refutation): each codepoint is
split into its UTF-8 bytes and each non-matching byte becomes one `'_'`, so a
non-ASCII character contributes one underscore per byte. -/
def sanitize_filename_claimed (name : String) : String :=
  ⟨name.data.flatMap
    (fun c => (utf8EncodeChar c).map
      (fun b => if keepByte b then Char.ofNat b else '_'))⟩

/-- Single-character escape table realized by the five ordered `replace`
passes of `html_escape`: `&`, `<`, `>`, `"`, `'` become their entities and
every other character is kept. -/
def escapeChar (c : Char) : List Char :=
  if c = '&' then "&amp;".toList
  else if c = '<' then "&lt;".toList
  else if c = '>' then "&gt;".toList
  else if c = '"' then "&quot;".toList
  else if c = '\'' then "&#x27;".toList
  else [c]

/-- Inverse unescaping: the five entities produced by `html_escape` are mapped
back to their source characters, scanning left to right. -/
def html_unescape : List Char → List Char
  | [] => []
  | x :: r =>
    if x = '&' then
      if r.take 4 = ['a', 'm', 'p', ';'] then '&' :: html_unescape (r.drop 4)
      else if r.take 3 = ['l', 't', ';'] then '<' :: html_unescape (r.drop 3)
      else if r.take 3 = ['g', 't', ';'] then '>' :: html_unescape (r.drop 3)
      else if r.take 5 = ['q', 'u', 'o', 't', ';'] then
        '"' :: html_unescape (r.drop 5)
      else if r.take 5 = ['#', 'x', '2', '7', ';'] then
        '\'' :: html_unescape (r.drop 5)
      else x :: html_unescape r
    else x :: html_unescape r
termination_by l => l.length
decreasing_by all_goals (simp [List.length_drop]; try omega)

/-- Well-escapedness: no literal `<`, `>`, `"`, `'` anywhere, and every `&`
begins one of the five escape sequences emitted by `html_escape`. -/
def wellEscaped : List Char → Bool
  | [] => true
  | x :: r =>
    if x = '&' then
      if r.take 4 = ['a', 'm', 'p', ';'] then wellEscaped (r.drop 4)
      else if r.take 3 = ['l', 't', ';'] then wellEscaped (r.drop 3)
      else if r.take 3 = ['g', 't', ';'] then wellEscaped (r.drop 3)
      else if r.take 5 = ['q', 'u', 'o', 't', ';'] then wellEscaped (r.drop 5)
      else if r.take 5 = ['#', 'x', '2', '7', ';'] then wellEscaped (r.drop 5)
      else false
    else if x = '<' || x = '>' || x = '"' || x = '\'' then false
    else wellEscaped r
termination_by l => l.length
decreasing_by all_goals (simp [List.length_drop]; try omega)

/-! ### `src/python.rs` — the Python sandbox -/

/-- `BLOCKED_BUILTINS` from `src/python.rs`. -/
def BLOCKED_BUILTINS : List String :=
  ["__import__", "open", "exec", "eval", "compile", "input", "breakpoint"]

/-- `BLOCKED_MODULES` from `src/python.rs`: modules set to `None` in
`sys.modules`. -/
def BLOCKED_MODULES : List String :=
  ["os", "subprocess", "socket", "shutil", "pathlib", "importlib", "ctypes",
   "_ctypes", "multiprocessing", "signal", "threading", "io", "_io",
   "tempfile", "webbrowser", "http", "urllib", "ftplib", "smtplib", "poplib",
   "imaplib", "xmlrpc", "code", "codeop", "pty", "pipes", "resource"]

/-- `safe_modules` from `create_namespace` in `src/python.rs`: modules
pre-imported into the board globals. -/
def safe_modules : List String :=
  ["math", "random", "json", "re", "textwrap", "itertools", "functools",
   "collections", "colorsys", "hashlib", "string", "dataclasses"]

/-- Name-level model of the sandbox environment produced by
`create_namespace`: which names are bound in the board globals, which keys
the sanitized `__builtins__` dict retains, and which modules `sys.modules`
maps to `None`. -/
structure SandboxNamespace where
  globals : List String
  builtins : List String
  sysModulesNone : List String
deriving DecidableEq

/-- `create_namespace` from `src/python.rs`, at the level of bound names.
`stdBuiltins` stands for the key set of the interpreter's `builtins` module
dict (external to the repository); `create_namespace` copies it and deletes
every `BLOCKED_BUILTINS` entry, binds the safe modules plus `WIDTH` and
`HEIGHT` in the globals, and maps every `BLOCKED_MODULES` entry to `None` in
`sys.modules`. -/
def create_namespace (stdBuiltins : List String) : SandboxNamespace :=
  { globals := safe_modules ++ ["WIDTH", "HEIGHT", "svg"]
    builtins := stdBuiltins.filter (fun n => !(BLOCKED_BUILTINS.contains n))
    sysModulesNone := BLOCKED_MODULES }

/-- Modelled from the spec: Python bare-name resolution, absent from the
repository (it is the CPython interpreter). A name is visible to user code
iff it is bound in the board globals or in the sanitized `__builtins__`;
per §4.C the removed primitives are thereby absent "from the user-visible
names", and using an absent name is a runtime `NameError`. -/
def nameVisible (ns : SandboxNamespace) (n : String) : Bool :=
  ns.globals.contains n || ns.builtins.contains n

/-- Modelled from the spec: CPython import machinery, absent from the
repository. `import m` fails with a runtime error when `sys.modules` maps
`m` to `None` (the import system raises) or when `__import__` is not among
the user-visible names (the import statement resolves `__import__` through
the frame's builtins). -/
def importFails (ns : SandboxNamespace) (m : String) : Bool :=
  ns.sysModulesNone.contains m || !(nameVisible ns "__import__")

/-- Outcome of `python::run_python` (src/python.rs). On success, `ok` carries
`ExecResult { svg_content, stdout }` and the namespace handle handed back to
the coordinator (same dict, post-execution contents). On failure, `err`
carries the display text of the error and the contents the partially
executed script left in the shared dict: `execute_python` injects `WIDTH`,
`HEIGHT` and the `svg` callback into the globals and then runs the code
in place (python.rs 149–175), so those mutations precede any reported
error. The Python interpreter itself is external, so the outcome is an
input of the coordinator model. -/
inductive ExecOutcome where
  | err (msg : String) (leftContents : Nat)
  | ok (svg_content : Option String) (stdout : String) (ns : PyNamespace)
deriving DecidableEq

/-! ### `supabase/functions/scry/rhai-sandbox/src/lib.rs` — resource limits -/

/-- Resource limits applied to a script engine: `none` means the
corresponding cap is never configured. -/
structure EngineLimits where
  max_operations : Option Nat
  max_call_levels : Option Nat
  max_string_size : Option Nat
  max_array_size : Option Nat
  max_map_size : Option Nat
deriving DecidableEq

namespace RhaiSandbox

/-- `MAX_OPERATIONS` from rhai-sandbox `lib.rs`. -/
def MAX_OPERATIONS : Nat := 2000000

/-- `MAX_CALL_LEVELS` from rhai-sandbox `lib.rs`. -/
def MAX_CALL_LEVELS : Nat := 32

/-- `MAX_STRING_SIZE` from rhai-sandbox `lib.rs`. -/
def MAX_STRING_SIZE : Nat := 1000000

/-- `MAX_ARRAY_SIZE` from rhai-sandbox `lib.rs`. -/
def MAX_ARRAY_SIZE : Nat := 10000

/-- `MAX_MAP_SIZE` from rhai-sandbox `lib.rs`. -/
def MAX_MAP_SIZE : Nat := 1000

/-- The limits `build_engine` installs on the engine
(`set_max_operations` … `set_max_map_size`, lib.rs lines 85–89). -/
def build_engine_limits : EngineLimits :=
  ⟨some MAX_OPERATIONS, some MAX_CALL_LEVELS, some MAX_STRING_SIZE,
   some MAX_ARRAY_SIZE, some MAX_MAP_SIZE⟩

end RhaiSandbox

/-- Resource limits configured by `execute_python` in `src/python.rs`: none.
The function injects `WIDTH`/`HEIGHT`, installs the svg callback and stdout
capture, and runs the code; no call anywhere in `python.rs` installs an
operation, depth, string, array or map cap. -/
def execute_python_limits : EngineLimits := ⟨none, none, none, none, none⟩

/-- Outcome of a metered script run: the script finished after `ops`
operations, or the engine stopped it with a resource error. -/
inductive RunOutcome where
  | finished (ops : Nat)
  | resourceError (ops : Nat)
deriving DecidableEq

/-- Modelled from the spec: the scripting runtime's operation metering
(§4.C "Maximum executed operations per call: 2,000,000 (hard cap — exceeding
terminates execution with a resource error)"). The metering loop lives
inside the Rhai engine behind `set_max_operations`, outside this repository;
a script is abstracted to the predicate `done` telling whether it has
finished after `n` executed operations, and the engine stops it with a
resource error once the budget is exhausted. -/
def runCappedAux (done : Nat → Bool) : Nat → Nat → RunOutcome
  | 0, ops => .resourceError ops
  | fuel + 1, ops => if done ops then .finished ops else runCappedAux done fuel (ops + 1)

/-- Run a script under an operation cap, starting from an operation count of
zero. -/
def runCapped (cap : Nat) (done : Nat → Bool) : RunOutcome :=
  runCappedAux done cap 0

/-! ### `src/server.rs` — the `whiteboard` tool-call coordinator -/

/-- `MAX_CODE_LEN` from `src/server.rs`. -/
def MAX_CODE_LEN : Nat := 1000000

/-- `MAX_HISTORY` from `src/server.rs`. -/
def MAX_HISTORY : Nat := 50

/-- A content item of a tool response. `Content::image` carries a base64
encoding of the PNG bytes; base64 is a bijection on byte strings, so the
model stores the bytes themselves. -/
inductive Content where
  | text (s : String)
  | image (png : List Nat)
deriving DecidableEq

/-- `CallToolResult`: a tool-level response that is either an error or a
success, carrying content items. -/
structure CallToolResult where
  isError : Bool
  content : List Content
deriving DecidableEq

/-- `CallToolResult::error`. -/
def CallToolResult.error (c : List Content) : CallToolResult := ⟨true, c⟩

/-- `CallToolResult::success`. -/
def CallToolResult.success (c : List Content) : CallToolResult := ⟨false, c⟩

/-- The placeholder board record inserted by get-or-create (server.rs lines
100–113): empty svg, png and history, `created_at = updated_at = now`. -/
def freshBoard (name : String) (w h : Nat) (ns : PyNamespace)
    (now : Timestamp) : Board :=
  { name := name, width := w, height := h, svg := "", png := [],
    pyns := ns, created_at := now, updated_at := now, history := [] }

/-- The get-or-create block of `whiteboard` (server.rs lines 88–116),
executed under the write lock: an existing board contributes its namespace
handle; otherwise a placeholder board with empty svg, png and history is
inserted and flagged new. `freshNs` stands for the namespace
`create_namespace_async` would build, `now` for `Utc::now()` at insertion. -/
def get_or_create (st : AppState) (name : String) (w h : Nat)
    (freshNs : PyNamespace) (now : Timestamp) : AppState × PyNamespace × Bool :=
  match findBoard st name with
  | some b => (st, b.pyns, false)
  | none => (insertBoard st name (freshBoard name w h freshNs now), freshNs, true)

/-- Body of the commit block of `whiteboard` (server.rs lines 171–189): if
the current svg is non-empty, push the prior `(svg, png, updated_at)` as a
snapshot — evicting the oldest entry first when the history is full — then
overwrite svg, png, namespace, width, height and `updated_at`. -/
def commitBoard (b : Board) (svg_content : String) (png_bytes : List Nat)
    (ns : PyNamespace) (w h : Nat) (now : Timestamp) : Board :=
  let history :=
    if b.svg ≠ "" then
      (if b.history.length ≥ MAX_HISTORY then b.history.drop 1 else b.history)
        ++ [⟨b.svg, b.png, b.updated_at⟩]
    else b.history
  { b with
    svg := svg_content
    png := png_bytes
    pyns := ns
    width := w
    height := h
    updated_at := now
    history := history }

/-- Maximal prefix of a character list whose total UTF-8 size fits the byte
budget — the functional reading of the snippet truncation, which starts at
byte 200 and walks back until `is_char_boundary`. -/
def takeBytes : Nat → List Char → List Char
  | _, [] => []
  | budget, c :: cs =>
    if c.utf8Size ≤ budget then c :: takeBytes (budget - c.utf8Size) cs else []

/-- The truncated SVG snippet of the response (server.rs lines 221–229). -/
def svgSnippet (svg_content : String) : String :=
  if rustLen svg_content > 200 then
    ⟨takeBytes 200 svg_content.data⟩ ++ "..."
  else svg_content

/-- Outcome of one `whiteboard` invocation: the post-call state, the tool
response, and the events broadcast on the channel during the call. -/
structure WhiteboardOutcome where
  state : AppState
  result : CallToolResult
  events : List BoardEvent
deriving DecidableEq

/-- The `whiteboard` tool handler (server.rs lines 51–252). External effects
enter as parameters: `render` is `render::svg_to_png`, `freshNs` the
namespace a new board would receive, `exec` the outcome of
`python::run_python`, `nowCreate`/`now` the `Utc::now()` readings at board
creation and at the later namespace/commit update. The gallery URL and the
output-directory file writes only append lines to the response header and
are not modelled (the state carries no gallery address or output
directory). -/
def whiteboard (render : String → Except String (List Nat)) (st : AppState)
    (name code : String) (width height : Option Nat) (freshNs : PyNamespace)
    (exec : ExecOutcome) (nowCreate now : Timestamp) : WhiteboardOutcome :=
  let w := width.getD 800
  let h := height.getD 600
  match validate_board_name name with
  | .error msg => ⟨st, .error [.text msg], []⟩
  | .ok _ =>
    if w = 0 || h = 0 then
      ⟨st, .error [.text "Width and height must be greater than zero"], []⟩
    else if w > 8192 || h > 8192 then
      ⟨st, .error [.text "Width and height must be at most 8192"], []⟩
    else if rustLen code > MAX_CODE_LEN then
      ⟨st, .error
        [.text s!"Code too large ({rustLen code} bytes, max {MAX_CODE_LEN})"],
       []⟩
    else
      let goc := get_or_create st name w h freshNs nowCreate
      let st1 := goc.1
      let is_new_board := goc.2.2
      match exec with
      | .err e leftContents =>
        -- The coordinator stores nothing on this path (server.rs 121–124),
        -- but `py.run` has already mutated the board's shared dict in place,
        -- so the board's namespace contents are whatever the partial
        -- execution left behind; handle and every other field are untouched.
        ⟨updateBoard st1 name
           (fun b => { b with pyns := { b.pyns with contents := leftContents } }),
         .error [.text e], []⟩
      | .ok svgOpt stdout ns =>
        match svgOpt with
        | none =>
          let msg := "Code executed successfully but svg() was not called.\n"
            ++ (if stdout ≠ "" then "\n--- stdout ---\n" ++ stdout else "")
          ⟨updateBoard st1 name (fun b => { b with pyns := ns, updated_at := now }),
           .success [.text msg], []⟩
        | some svg_content =>
          match render svg_content with
          | .error e =>
            -- Again no store happens (server.rs 150–155), but the successful
            -- execution has already mutated the shared dict to the returned
            -- namespace's contents.
            ⟨updateBoard st1 name
               (fun b => { b with pyns := { b.pyns with contents := ns.contents } }),
             .error [.text ("SVG render failed: " ++ e)], []⟩
          | .ok png_bytes =>
            let st2 := updateBoard st1 name
              (fun b => commitBoard b svg_content png_bytes ns w h now)
            let event_type :=
              if is_new_board then BoardEventType.Created
              else BoardEventType.Updated
            let header := s!"Board: {name}\nSize: {w}x{h}"
            let text_parts := [header]
              ++ (if stdout ≠ "" then ["--- stdout ---\n" ++ stdout] else [])
              ++ ["--- SVG (snippet) ---\n" ++ svgSnippet svg_content]
            ⟨st2,
             .success [.image png_bytes,
                       .text (String.intercalate "\n\n" text_parts)],
             [⟨name, event_type⟩]⟩

/-- Display of a `chrono` timestamp (`%Y-%m-%d %H:%M:%S UTC`); calendar
arithmetic is not modelled, the numeric timestamp stands in for the
formatted date. -/
def dateFormat (t : Timestamp) : String := toString t ++ " UTC"

/-- The per-board text block built by `whiteboard_list` (server.rs lines
296–299); the optional gallery URL line is configuration-dependent and not
modelled. -/
def boardInfo (b : Board) : String :=
  "Board: " ++ b.name ++ "\nSize: " ++ toString b.width ++ "x"
    ++ toString b.height ++ "\nCreated: " ++ dateFormat b.created_at
    ++ "\nUpdated: " ++ dateFormat b.updated_at ++ "\nHistory: "
    ++ toString b.history.length ++ " snapshots"

/-- The `whiteboard_list` tool handler (server.rs lines 258–310): one text
block per board sorted by `created_at` ascending, followed by the board's
image when its png is non-empty. -/
def whiteboard_list (st : AppState) : CallToolResult :=
  if st.boards.isEmpty then
    .success [.text "No boards yet. Use the whiteboard tool to create one."]
  else
    let sorted :=
      (st.boards.map (·.2)).mergeSort (fun a b => a.created_at ≤ b.created_at)
    .success (sorted.flatMap (fun b =>
      [Content.text (boardInfo b)]
        ++ (if b.png ≠ [] then [Content.image b.png] else [])))

/-- The png/svg emptiness invariant of §3: for every board in the map,
`png.is_empty() ⇔ svg.is_empty()`. -/
def pngSvgInv (st : AppState) : Prop :=
  ∀ p ∈ st.boards, (p.2.png = [] ↔ p.2.svg = "")

/-- Arguments of one commit — the svg, png, namespace, dimensions and time of
one successful render being stored. -/
structure CommitArgs where
  svg : String
  png : List Nat
  ns : PyNamespace
  w : Nat
  h : Nat
  now : Timestamp
deriving DecidableEq

/-- Fold a sequence of successful-render commits over a board (each one being
the commit block of a `whiteboard` call that produced and rendered an
image). -/
def runCommits (b : Board) (xs : List CommitArgs) : Board :=
  xs.foldl (fun acc a => commitBoard acc a.svg a.png a.ns a.w a.h a.now) b

/-! ## Theorems -/

/-- C5: `validate_board_name` succeeds exactly on the §3 name rules, and each
failure reports the first violated rule in the order empty → length →
forbidden characters → leading dot / leading-trailing space, with the
descriptive reason of the source. -/
theorem C5_validate_board_name (s : String) :
    ((validate_board_name s).isOk ↔ specNameRules s)
    ∧ (s = "" → validate_board_name s = .error "Board name cannot be empty")
    ∧ (s ≠ "" → rustLen s > MAX_NAME_LEN →
        validate_board_name s =
          .error s!"Board name too long ({rustLen s} bytes, max {MAX_NAME_LEN})")
    ∧ (s ≠ "" → rustLen s ≤ MAX_NAME_LEN →
        (containsChar s '/' || containsChar s '\x00' || containsChar s '\n'
          || containsChar s '\r') = true →
        validate_board_name s =
          .error "Board name cannot contain /, null, or newline characters")
    ∧ (s ≠ "" → rustLen s ≤ MAX_NAME_LEN →
        (containsChar s '/' || containsChar s '\x00' || containsChar s '\n'
          || containsChar s '\r') = false →
        (startsWithChar s '.' || startsWithChar s ' '
          || endsWithChar s ' ') = true →
        validate_board_name s =
          .error "Board name cannot start with '.' or have leading/trailing spaces") := by
  refine ⟨⟨?_, ?_⟩, ?_, ?_, ?_, ?_⟩
  · intro h
    unfold validate_board_name at h
    split_ifs at h with h1 h2 h3 h4
    · simp [Except.isOk, Except.toBool] at h
    · simp [Except.isOk, Except.toBool] at h
    · simp [Except.isOk, Except.toBool] at h
    · simp [Except.isOk, Except.toBool] at h
    · obtain ⟨⟨⟨hSl, hNul⟩, hLf⟩, hCr⟩ :
          ((containsChar s '/' = false ∧ containsChar s '\x00' = false)
            ∧ containsChar s '\n' = false) ∧ containsChar s '\r' = false := by
        simpa [Bool.or_eq_false_iff] using h3
      obtain ⟨⟨hDot, hSp1⟩, hSp2⟩ :
          (startsWithChar s '.' = false ∧ startsWithChar s ' ' = false)
            ∧ endsWithChar s ' ' = false := by
        simpa [Bool.or_eq_false_iff] using h4
      exact ⟨h1, by have : MAX_NAME_LEN = 128 := rfl; omega,
        hSl, hNul, hCr, hLf, hDot, hSp1, hSp2⟩
  · rintro ⟨hS, hLen, hSl, hNul, hCr, hLf, hDot, hSp1, hSp2⟩
    unfold validate_board_name
    rw [if_neg hS,
      if_neg (by have : MAX_NAME_LEN = 128 := rfl
                 omega : ¬(rustLen s > MAX_NAME_LEN)),
      if_neg (by simp [hSl, hNul, hCr, hLf]),
      if_neg (by simp [hDot, hSp1, hSp2])]
    rfl
  · intro h1
    unfold validate_board_name
    rw [if_pos h1]
  · intro h1 h2
    unfold validate_board_name
    rw [if_neg h1, if_pos h2]
  · intro h1 h2 h3
    unfold validate_board_name
    rw [if_neg h1, if_neg (by omega : ¬(rustLen s > MAX_NAME_LEN)), if_pos h3]
  · intro h1 h2 h3 h4
    unfold validate_board_name
    rw [if_neg h1, if_neg (by omega : ¬(rustLen s > MAX_NAME_LEN)),
      if_neg (by simp [h3]), if_pos h4]

/-- Witness for C5 at concrete inputs. -/
theorem C5_validate_board_name_witness :
    ((validate_board_name "hello").isOk ↔ specNameRules "hello")
    ∧ validate_board_name "" = .error "Board name cannot be empty" :=
  ⟨(C5_validate_board_name "hello").1, (C5_validate_board_name "").2.1 rfl⟩

set_option maxRecDepth 4000 in
/-- C6 as stated is false: `sanitize_filename` maps per codepoint, not per
UTF-8 byte, so the two-byte character `©` becomes a single underscore, while
the claimed per-byte behaviour would give two. -/
theorem C6_sanitize_filename_counterexample :
    sanitize_filename "©" = "_"
    ∧ sanitize_filename_claimed "©" = "__"
    ∧ sanitize_filename "©" ≠ sanitize_filename_claimed "©" := by
  refine ⟨by decide, by decide, by decide⟩

/-- C6 amended: `sanitize_filename` keeps each character in `[A-Za-z0-9._-]`
and replaces every other character — each non-ASCII codepoint included,
regardless of its UTF-8 byte count — with exactly one `'_'`: the output has
one character per input character, every output character lies in
`[A-Za-z0-9._-]`, and position `i` of the output is the input character when
kept and `'_'` otherwise. -/
theorem C6_sanitize_filename_per_char (s : String) :
    (sanitize_filename s).data.length = s.data.length
    ∧ (sanitize_filename s).data.all keepChar = true
    ∧ ∀ i : Nat, (sanitize_filename s).data[i]? =
        (s.data[i]?).map (fun c => if keepChar c then c else '_') := by
  refine ⟨by simp [sanitize_filename], ?_, ?_⟩
  · rw [List.all_eq_true]
    intro c hc
    simp only [sanitize_filename, List.mem_map] at hc
    obtain ⟨x, _, rfl⟩ := hc
    by_cases h : keepChar x
    · simp [h]
    · simp [h]
      decide
  · intro i
    simp [sanitize_filename]

/-- C8 as stated is false for the Python sandbox that `whiteboard` actually
runs scripts in: `execute_python` configures no resource caps at all, so the
enforced limits there are not the named constants of the claim and no
operation budget stops an unbounded loop. -/
theorem C8_execute_python_uncapped_counterexample :
    execute_python_limits.max_operations = none
    ∧ execute_python_limits ≠ RhaiSandbox.build_engine_limits :=
  ⟨rfl, by decide⟩

/-- Under the modelled operation metering, a script that never finishes is
stopped with a resource error exactly when the budget runs out. -/
theorem runCappedAux_never_done (fuel ops : Nat) :
    runCappedAux (fun _ => false) fuel ops = .resourceError (ops + fuel) := by
  induction fuel generalizing ops with
  | zero => simp [runCappedAux]
  | succ n ih =>
    have hstep : runCappedAux (fun _ => false) (n + 1) ops
        = runCappedAux (fun _ => false) n (ops + 1) := by
      simp [runCappedAux]
    rw [hstep, ih]
    congr 1
    omega

/-- Under the modelled operation metering, every run performs at most
`fuel` operations beyond its start count before finishing or being stopped. -/
theorem runCappedAux_bounded (done : Nat → Bool) (fuel ops : Nat) :
    ∃ k ≤ fuel, runCappedAux done fuel ops = .finished (ops + k)
      ∨ runCappedAux done fuel ops = .resourceError (ops + k) := by
  induction fuel generalizing ops with
  | zero => exact ⟨0, Nat.le_refl 0, Or.inr (by simp [runCappedAux])⟩
  | succ n ih =>
    by_cases h : done ops
    · exact ⟨0, Nat.zero_le _, Or.inl (by simp [runCappedAux, h])⟩
    · obtain ⟨k, hk, hout⟩ := ih (ops + 1)
      refine ⟨k + 1, by omega, ?_⟩
      simpa [runCappedAux, h, Nat.add_assoc, Nat.add_comm 1 k] using hout

/-- C8 amended: in the Rhai sandbox the five resource limits are named
constants with exactly the claimed values — 2,000,000 operations, 32 call
levels, 1,000,000-byte strings, 10,000-element arrays, 1,000-entry maps —
and `build_engine` installs each of them on the engine; under the modelled
operation metering every script stops within the operation budget, and an
unbounded loop is stopped with a resource-cap error exactly at the budget. -/
theorem C8_rhai_limits_and_termination :
    RhaiSandbox.build_engine_limits =
      ⟨some 2000000, some 32, some 1000000, some 10000, some 1000⟩
    ∧ runCapped RhaiSandbox.MAX_OPERATIONS (fun _ => false) =
        .resourceError RhaiSandbox.MAX_OPERATIONS
    ∧ ∀ done : Nat → Bool, ∃ ops ≤ RhaiSandbox.MAX_OPERATIONS,
        runCapped RhaiSandbox.MAX_OPERATIONS done = .finished ops
        ∨ runCapped RhaiSandbox.MAX_OPERATIONS done = .resourceError ops := by
  refine ⟨rfl, ?_, ?_⟩
  · simpa using runCappedAux_never_done RhaiSandbox.MAX_OPERATIONS 0
  · intro done
    obtain ⟨k, hk, hout⟩ :=
      runCappedAux_bounded done RhaiSandbox.MAX_OPERATIONS 0
    exact ⟨k, hk, by simpa [runCapped] using hout⟩

/-- Membership in the sanitized builtins fails for every blocked name. -/
theorem blocked_not_in_safe_builtins (stdBuiltins : List String) (n : String)
    (hn : BLOCKED_BUILTINS.contains n = true) :
    (stdBuiltins.filter
      (fun m => !(BLOCKED_BUILTINS.contains m))).contains n = false := by
  by_contra h
  rw [Bool.not_eq_false, List.elem_iff] at h
  have := List.of_mem_filter h
  rw [hn] at this
  simp at this

/-- C9: in every namespace built by `create_namespace` — whatever the
interpreter's builtins are — the names `open`, `eval`, `exec`, `compile`,
`__import__`, `breakpoint` and `input` are not visible to user code (their
use is a runtime error under the modelled name resolution), and `import os`
fails under the modelled import machinery because `sys.modules` maps `os` to
`None` and `__import__` is itself removed. -/
theorem C9_sandbox_denies_escapes (stdBuiltins : List String) :
    (["open", "eval", "exec", "compile", "__import__", "breakpoint",
      "input"].all
        (fun n => !(nameVisible (create_namespace stdBuiltins) n))) = true
    ∧ importFails (create_namespace stdBuiltins) "os" = true := by
  constructor
  · rw [List.all_eq_true]
    intro n hn
    have hblocked : BLOCKED_BUILTINS.contains n = true := by
      fin_cases hn <;> decide
    have hglob :
        (safe_modules ++ ["WIDTH", "HEIGHT", "svg"]).contains n = false := by
      fin_cases hn <;> decide
    have hvis : nameVisible (create_namespace stdBuiltins) n = false := by
      have hdef : nameVisible (create_namespace stdBuiltins) n =
          ((safe_modules ++ ["WIDTH", "HEIGHT", "svg"]).contains n
            || (stdBuiltins.filter
              (fun m => !(BLOCKED_BUILTINS.contains m))).contains n) := rfl
      rw [hdef, hglob, blocked_not_in_safe_builtins stdBuiltins n hblocked]
      rfl
    simp [hvis]
  · have hdef : importFails (create_namespace stdBuiltins) "os" =
        (BLOCKED_MODULES.contains "os"
          || !(nameVisible (create_namespace stdBuiltins) "__import__")) := rfl
    rw [hdef, (by decide : BLOCKED_MODULES.contains "os" = true), Bool.true_or]

/-- Rust `replace` distributes over concatenation. -/
theorem replaceChar_append (c : Char) (rep : List Char) (a b : List Char) :
    replaceChar c rep (a ++ b) = replaceChar c rep a ++ replaceChar c rep b := by
  simp [replaceChar]

/-- The five escape passes process each input character independently. -/
theorem html_escape_list_cons (x : Char) (t : List Char) :
    html_escape_list (x :: t) = html_escape_list [x] ++ html_escape_list t := by
  show html_escape_list ([x] ++ t) = _
  simp only [html_escape_list, replaceChar_append]

/-- On one character, the composed passes agree with the escape table: the
pass for `&` runs first, so the ampersands introduced by the later entity
substitutions are never re-escaped. -/
theorem html_escape_list_singleton (x : Char) :
    html_escape_list [x] = escapeChar x := by
  by_cases h1 : x = '&'
  · subst h1; decide
  by_cases h2 : x = '<'
  · subst h2; decide
  by_cases h3 : x = '>'
  · subst h3; decide
  by_cases h4 : x = '"'
  · subst h4; decide
  by_cases h5 : x = '\''
  · subst h5; decide
  simp [html_escape_list, replaceChar, escapeChar, h1, h2, h3, h4, h5]

/-- The five ordered replacement passes equal one pass of the escape table. -/
theorem html_escape_list_eq_flatMap (s : List Char) :
    html_escape_list s = s.flatMap escapeChar := by
  induction s with
  | nil => rfl
  | cons x t ih =>
    rw [html_escape_list_cons, html_escape_list_singleton, ih]
    simp

/-- Unfolding lemma for `html_unescape` on a non-empty list. -/
theorem html_unescape_cons (x : Char) (r : List Char) :
    html_unescape (x :: r) =
      (if x = '&' then
        if r.take 4 = ['a', 'm', 'p', ';'] then '&' :: html_unescape (r.drop 4)
        else if r.take 3 = ['l', 't', ';'] then '<' :: html_unescape (r.drop 3)
        else if r.take 3 = ['g', 't', ';'] then '>' :: html_unescape (r.drop 3)
        else if r.take 5 = ['q', 'u', 'o', 't', ';'] then
          '"' :: html_unescape (r.drop 5)
        else if r.take 5 = ['#', 'x', '2', '7', ';'] then
          '\'' :: html_unescape (r.drop 5)
        else x :: html_unescape r
      else x :: html_unescape r) := by
  rw [html_unescape.eq_def]

/-- Unfolding lemma for `wellEscaped` on a non-empty list. -/
theorem wellEscaped_cons (x : Char) (r : List Char) :
    wellEscaped (x :: r) =
      (if x = '&' then
        if r.take 4 = ['a', 'm', 'p', ';'] then wellEscaped (r.drop 4)
        else if r.take 3 = ['l', 't', ';'] then wellEscaped (r.drop 3)
        else if r.take 3 = ['g', 't', ';'] then wellEscaped (r.drop 3)
        else if r.take 5 = ['q', 'u', 'o', 't', ';'] then wellEscaped (r.drop 5)
        else if r.take 5 = ['#', 'x', '2', '7', ';'] then wellEscaped (r.drop 5)
        else false
      else if x = '<' || x = '>' || x = '"' || x = '\'' then false
      else wellEscaped r) := by
  rw [wellEscaped.eq_def]

/-- Unescaping the empty list. -/
theorem html_unescape_nil : html_unescape [] = [] := by
  rw [html_unescape.eq_def]

/-- Well-escapedness of the empty list. -/
theorem wellEscaped_nil : wellEscaped [] = true := by
  rw [wellEscaped.eq_def]

/-- Lists with different heads differ. -/
theorem cons_ne_of_head (a b : Char) (as bs : List Char) (h : a ≠ b) :
    (a :: as) ≠ (b :: bs) := by
  intro hc
  injection hc with h1 _
  exact h h1

/-- A character other than `&` passes through the unescaper untouched. -/
theorem html_unescape_cons_ne (x : Char) (r : List Char) (h : x ≠ '&') :
    html_unescape (x :: r) = x :: html_unescape r := by
  rw [html_unescape_cons, if_neg h]

/-- A character other than `&` is checked literally by `wellEscaped`. -/
theorem wellEscaped_cons_ne (x : Char) (r : List Char) (h : x ≠ '&') :
    wellEscaped (x :: r) =
      (if x = '<' || x = '>' || x = '"' || x = '\'' then false
       else wellEscaped r) := by
  rw [wellEscaped_cons, if_neg h]

/-- Decoding the `&amp;`-style entity. -/
theorem html_unescape_amp (X : List Char) :
    html_unescape ('&' :: 'a' :: 'm' :: 'p' :: ';' :: X) = '&' :: html_unescape X := by
  rw [html_unescape_cons, if_pos rfl]
  rw [show List.take 4 ('a' :: 'm' :: 'p' :: ';' :: X) = ['a', 'm', 'p', ';'] from rfl]
  rw [if_pos rfl]
  rw [show List.drop 4 ('a' :: 'm' :: 'p' :: ';' :: X) = X from rfl]

/-- Decoding the `&lt;`-style entity. -/
theorem html_unescape_lt (X : List Char) :
    html_unescape ('&' :: 'l' :: 't' :: ';' :: X) = '<' :: html_unescape X := by
  rw [html_unescape_cons, if_pos rfl]
  rw [show List.take 4 ('l' :: 't' :: ';' :: X) = 'l' :: 't' :: ';' :: List.take 1 X from rfl]
  rw [if_neg (cons_ne_of_head 'l' 'a' _ _ (by decide))]
  rw [show List.take 3 ('l' :: 't' :: ';' :: X) = ['l', 't', ';'] from rfl]
  rw [if_pos rfl]
  rw [show List.drop 3 ('l' :: 't' :: ';' :: X) = X from rfl]

/-- Decoding the `&gt;`-style entity. -/
theorem html_unescape_gt (X : List Char) :
    html_unescape ('&' :: 'g' :: 't' :: ';' :: X) = '>' :: html_unescape X := by
  rw [html_unescape_cons, if_pos rfl]
  rw [show List.take 4 ('g' :: 't' :: ';' :: X) = 'g' :: 't' :: ';' :: List.take 1 X from rfl]
  rw [if_neg (cons_ne_of_head 'g' 'a' _ _ (by decide))]
  rw [show List.take 3 ('g' :: 't' :: ';' :: X) = ['g', 't', ';'] from rfl]
  rw [if_neg (cons_ne_of_head 'g' 'l' _ _ (by decide))]
  rw [if_pos rfl]
  rw [show List.drop 3 ('g' :: 't' :: ';' :: X) = X from rfl]

/-- Decoding the `&quot;`-style entity. -/
theorem html_unescape_quot (X : List Char) :
    html_unescape ('&' :: 'q' :: 'u' :: 'o' :: 't' :: ';' :: X) = '"' :: html_unescape X := by
  rw [html_unescape_cons, if_pos rfl]
  rw [show List.take 4 ('q' :: 'u' :: 'o' :: 't' :: ';' :: X) = ['q', 'u', 'o', 't'] from rfl]
  rw [if_neg (cons_ne_of_head 'q' 'a' _ _ (by decide))]
  rw [show List.take 3 ('q' :: 'u' :: 'o' :: 't' :: ';' :: X) = ['q', 'u', 'o'] from rfl]
  rw [if_neg (cons_ne_of_head 'q' 'l' _ _ (by decide))]
  rw [if_neg (cons_ne_of_head 'q' 'g' _ _ (by decide))]
  rw [show List.take 5 ('q' :: 'u' :: 'o' :: 't' :: ';' :: X) = ['q', 'u', 'o', 't', ';'] from rfl]
  rw [if_pos rfl]
  rw [show List.drop 5 ('q' :: 'u' :: 'o' :: 't' :: ';' :: X) = X from rfl]

/-- Decoding the numeric apostrophe entity. -/
theorem html_unescape_x27 (X : List Char) :
    html_unescape ('&' :: '#' :: 'x' :: '2' :: '7' :: ';' :: X) = '\'' :: html_unescape X := by
  rw [html_unescape_cons, if_pos rfl]
  rw [show List.take 4 ('#' :: 'x' :: '2' :: '7' :: ';' :: X) = ['#', 'x', '2', '7'] from rfl]
  rw [if_neg (cons_ne_of_head '#' 'a' _ _ (by decide))]
  rw [show List.take 3 ('#' :: 'x' :: '2' :: '7' :: ';' :: X) = ['#', 'x', '2'] from rfl]
  rw [if_neg (cons_ne_of_head '#' 'l' _ _ (by decide))]
  rw [if_neg (cons_ne_of_head '#' 'g' _ _ (by decide))]
  rw [show List.take 5 ('#' :: 'x' :: '2' :: '7' :: ';' :: X) = ['#', 'x', '2', '7', ';'] from rfl]
  rw [if_neg (cons_ne_of_head '#' 'q' _ _ (by decide))]
  rw [if_pos rfl]
  rw [show List.drop 5 ('#' :: 'x' :: '2' :: '7' :: ';' :: X) = X from rfl]

/-- Well-escapedness steps over the `amp` entity. -/
theorem wellEscaped_amp (X : List Char) :
    wellEscaped ('&' :: 'a' :: 'm' :: 'p' :: ';' :: X) = wellEscaped X := by
  rw [wellEscaped_cons, if_pos rfl]
  rw [show List.take 4 ('a' :: 'm' :: 'p' :: ';' :: X) = ['a', 'm', 'p', ';'] from rfl]
  rw [if_pos rfl]
  rw [show List.drop 4 ('a' :: 'm' :: 'p' :: ';' :: X) = X from rfl]

/-- Well-escapedness steps over the `lt` entity. -/
theorem wellEscaped_lt (X : List Char) :
    wellEscaped ('&' :: 'l' :: 't' :: ';' :: X) = wellEscaped X := by
  rw [wellEscaped_cons, if_pos rfl]
  rw [show List.take 4 ('l' :: 't' :: ';' :: X) = 'l' :: 't' :: ';' :: List.take 1 X from rfl]
  rw [if_neg (cons_ne_of_head 'l' 'a' _ _ (by decide))]
  rw [show List.take 3 ('l' :: 't' :: ';' :: X) = ['l', 't', ';'] from rfl]
  rw [if_pos rfl]
  rw [show List.drop 3 ('l' :: 't' :: ';' :: X) = X from rfl]

/-- Well-escapedness steps over the `gt` entity. -/
theorem wellEscaped_gt (X : List Char) :
    wellEscaped ('&' :: 'g' :: 't' :: ';' :: X) = wellEscaped X := by
  rw [wellEscaped_cons, if_pos rfl]
  rw [show List.take 4 ('g' :: 't' :: ';' :: X) = 'g' :: 't' :: ';' :: List.take 1 X from rfl]
  rw [if_neg (cons_ne_of_head 'g' 'a' _ _ (by decide))]
  rw [show List.take 3 ('g' :: 't' :: ';' :: X) = ['g', 't', ';'] from rfl]
  rw [if_neg (cons_ne_of_head 'g' 'l' _ _ (by decide))]
  rw [if_pos rfl]
  rw [show List.drop 3 ('g' :: 't' :: ';' :: X) = X from rfl]

/-- Well-escapedness steps over the `quot` entity. -/
theorem wellEscaped_quot (X : List Char) :
    wellEscaped ('&' :: 'q' :: 'u' :: 'o' :: 't' :: ';' :: X) = wellEscaped X := by
  rw [wellEscaped_cons, if_pos rfl]
  rw [show List.take 4 ('q' :: 'u' :: 'o' :: 't' :: ';' :: X) = ['q', 'u', 'o', 't'] from rfl]
  rw [if_neg (cons_ne_of_head 'q' 'a' _ _ (by decide))]
  rw [show List.take 3 ('q' :: 'u' :: 'o' :: 't' :: ';' :: X) = ['q', 'u', 'o'] from rfl]
  rw [if_neg (cons_ne_of_head 'q' 'l' _ _ (by decide))]
  rw [if_neg (cons_ne_of_head 'q' 'g' _ _ (by decide))]
  rw [show List.take 5 ('q' :: 'u' :: 'o' :: 't' :: ';' :: X) = ['q', 'u', 'o', 't', ';'] from rfl]
  rw [if_pos rfl]
  rw [show List.drop 5 ('q' :: 'u' :: 'o' :: 't' :: ';' :: X) = X from rfl]

/-- Well-escapedness steps over the `x27` entity. -/
theorem wellEscaped_x27 (X : List Char) :
    wellEscaped ('&' :: '#' :: 'x' :: '2' :: '7' :: ';' :: X) = wellEscaped X := by
  rw [wellEscaped_cons, if_pos rfl]
  rw [show List.take 4 ('#' :: 'x' :: '2' :: '7' :: ';' :: X) = ['#', 'x', '2', '7'] from rfl]
  rw [if_neg (cons_ne_of_head '#' 'a' _ _ (by decide))]
  rw [show List.take 3 ('#' :: 'x' :: '2' :: '7' :: ';' :: X) = ['#', 'x', '2'] from rfl]
  rw [if_neg (cons_ne_of_head '#' 'l' _ _ (by decide))]
  rw [if_neg (cons_ne_of_head '#' 'g' _ _ (by decide))]
  rw [show List.take 5 ('#' :: 'x' :: '2' :: '7' :: ';' :: X) = ['#', 'x', '2', '7', ';'] from rfl]
  rw [if_neg (cons_ne_of_head '#' 'q' _ _ (by decide))]
  rw [if_pos rfl]
  rw [show List.drop 5 ('#' :: 'x' :: '2' :: '7' :: ';' :: X) = X from rfl]

/-- Unescaping inverts the escape table. -/
theorem html_unescape_flatMap (s : List Char) :
    html_unescape (s.flatMap escapeChar) = s := by
  induction s with
  | nil => simpa using html_unescape_nil
  | cons x t ih =>
    rw [List.flatMap_cons]
    by_cases h1 : x = '&'
    · subst h1
      rw [(by decide : escapeChar '&' = ['&', 'a', 'm', 'p', ';'])]
      simp only [List.cons_append, List.nil_append]
      rw [html_unescape_amp, ih]
    by_cases h2 : x = '<'
    · subst h2
      rw [(by decide : escapeChar '<' = ['&', 'l', 't', ';'])]
      simp only [List.cons_append, List.nil_append]
      rw [html_unescape_lt, ih]
    by_cases h3 : x = '>'
    · subst h3
      rw [(by decide : escapeChar '>' = ['&', 'g', 't', ';'])]
      simp only [List.cons_append, List.nil_append]
      rw [html_unescape_gt, ih]
    by_cases h4 : x = '"'
    · subst h4
      rw [(by decide : escapeChar '"' = ['&', 'q', 'u', 'o', 't', ';'])]
      simp only [List.cons_append, List.nil_append]
      rw [html_unescape_quot, ih]
    by_cases h5 : x = '\''
    · subst h5
      rw [(by decide : escapeChar '\'' = ['&', '#', 'x', '2', '7', ';'])]
      simp only [List.cons_append, List.nil_append]
      rw [html_unescape_x27, ih]
    have hE : escapeChar x = [x] := by simp [escapeChar, h1, h2, h3, h4, h5]
    rw [hE]
    simp only [List.cons_append, List.nil_append]
    rw [html_unescape_cons_ne x _ h1, ih]

/-- Escaped output is well-escaped. -/
theorem wellEscaped_flatMap (s : List Char) :
    wellEscaped (s.flatMap escapeChar) = true := by
  induction s with
  | nil => simpa using wellEscaped_nil
  | cons x t ih =>
    rw [List.flatMap_cons]
    by_cases h1 : x = '&'
    · subst h1
      rw [(by decide : escapeChar '&' = ['&', 'a', 'm', 'p', ';'])]
      simp only [List.cons_append, List.nil_append]
      rw [wellEscaped_amp]
      exact ih
    by_cases h2 : x = '<'
    · subst h2
      rw [(by decide : escapeChar '<' = ['&', 'l', 't', ';'])]
      simp only [List.cons_append, List.nil_append]
      rw [wellEscaped_lt]
      exact ih
    by_cases h3 : x = '>'
    · subst h3
      rw [(by decide : escapeChar '>' = ['&', 'g', 't', ';'])]
      simp only [List.cons_append, List.nil_append]
      rw [wellEscaped_gt]
      exact ih
    by_cases h4 : x = '"'
    · subst h4
      rw [(by decide : escapeChar '"' = ['&', 'q', 'u', 'o', 't', ';'])]
      simp only [List.cons_append, List.nil_append]
      rw [wellEscaped_quot]
      exact ih
    by_cases h5 : x = '\''
    · subst h5
      rw [(by decide : escapeChar '\'' = ['&', '#', 'x', '2', '7', ';'])]
      simp only [List.cons_append, List.nil_append]
      rw [wellEscaped_x27]
      exact ih
    have hE : escapeChar x = [x] := by simp [escapeChar, h1, h2, h3, h4, h5]
    rw [hE]
    simp only [List.cons_append, List.nil_append]
    rw [wellEscaped_cons_ne x _ h1, if_neg (by simp [h2, h3, h4, h5])]
    exact ih

/-- C7: `html_escape` performs the five replacements in source order
(definition `html_escape_list`); its output never contains `<`, `>`, `"` or
`'` literally and every `&` in it begins one of the five escape sequences
(`wellEscaped`), and the inverse unescaping recovers the input exactly. -/
theorem C7_html_escape (s : String) :
    wellEscaped (html_escape s).data = true
    ∧ html_unescape (html_escape s).data = s.data := by
  have hdata : (html_escape s).data = s.data.flatMap escapeChar :=
    html_escape_list_eq_flatMap s.data
  rw [hdata]
  exact ⟨wellEscaped_flatMap s.data, html_unescape_flatMap s.data⟩

/-- Shared reduction of `whiteboard` on the execution-error path: the
response is a tool-level error carrying the error text, no event is sent,
and the state is the post-get-or-create state except that the named board's
namespace contents are those the partial execution left in the shared
dict. -/
theorem whiteboard_exec_err
    (render : String → Except String (List Nat)) (st : AppState)
    (name code : String) (width height : Option Nat) (freshNs : PyNamespace)
    (e : String) (k : Nat) (nowCreate now : Timestamp)
    (hname : validate_board_name name = .ok ())
    (hw0 : ¬(width.getD 800 = 0)) (hh0 : ¬(height.getD 600 = 0))
    (hw8 : ¬(width.getD 800 > 8192)) (hh8 : ¬(height.getD 600 > 8192))
    (hcode : ¬(rustLen code > MAX_CODE_LEN)) :
    whiteboard render st name code width height freshNs (.err e k) nowCreate now
      = ⟨updateBoard
           (get_or_create st name (width.getD 800) (height.getD 600) freshNs
             nowCreate).1
           name (fun b => { b with pyns := { b.pyns with contents := k } }),
         CallToolResult.error [.text e], []⟩ := by
  simp [whiteboard, hname, hw0, hh0, hw8, hh8, hcode]

/-- C1 as stated is false on the namespace conjunct: `py.run` executes the
script against the board's shared dict, so assignments made before a raise
persist even though the coordinator commits nothing. Concretely, a failed
run against a board whose namespace contents were `0` leaves contents `1`
(the partial `x = 1` before the raise), different from the pre-execution
namespace. -/
theorem C1_namespace_mutation_counterexample :
    ((findBoard (whiteboard (fun _ => .error "r")
        ⟨[("a", freshBoard "a" 800 600 ⟨0, 0⟩ 0)]⟩ "a"
        "x = 1\nraise RuntimeError" none none ⟨5, 5⟩
        (.err "RuntimeError" 1) 0 1).state "a").map Board.pyns)
      = some ⟨0, 1⟩
    ∧ (freshBoard "a" 800 600 ⟨0, 0⟩ 0).pyns ≠ (⟨0, 1⟩ : PyNamespace) := by
  exact ⟨rfl, by decide⟩

/-- C1 amended: when script execution fails, `whiteboard` returns a
tool-level error whose single content item is the execution error text
verbatim, broadcasts no event, and performs no commit — every board keeps
its svg, png, width, height, `updated_at`, history and namespace handle from
before the execution started (the post-get-or-create state) — but the named
board's namespace contents are those the partially executed script left in
the shared dict, which `py.run` mutates in place before the error is
reported. -/
theorem C1_exec_error_no_commit
    (render : String → Except String (List Nat)) (st : AppState)
    (name code : String) (width height : Option Nat) (freshNs : PyNamespace)
    (e : String) (k : Nat) (nowCreate now : Timestamp)
    (hname : validate_board_name name = .ok ())
    (hw0 : ¬(width.getD 800 = 0)) (hh0 : ¬(height.getD 600 = 0))
    (hw8 : ¬(width.getD 800 > 8192)) (hh8 : ¬(height.getD 600 > 8192))
    (hcode : ¬(rustLen code > MAX_CODE_LEN)) :
    whiteboard render st name code width height freshNs (.err e k) nowCreate now
      = ⟨updateBoard
           (get_or_create st name (width.getD 800) (height.getD 600) freshNs
             nowCreate).1
           name (fun b => { b with pyns := { b.pyns with contents := k } }),
         CallToolResult.error [.text e], []⟩ :=
  whiteboard_exec_err render st name code width height freshNs e k nowCreate
    now hname hw0 hh0 hw8 hh8 hcode

/-- Witness for C1's amended theorem at concrete inputs. -/
theorem C1_exec_error_no_commit_witness :
    whiteboard (fun _ => .error "r") ⟨[]⟩ "a" "x" none none ⟨0, 0⟩
        (.err "boom" 1) 0 1
      = ⟨updateBoard (get_or_create ⟨[]⟩ "a" 800 600 ⟨0, 0⟩ 0).1 "a"
           (fun b => { b with pyns := { b.pyns with contents := 1 } }),
         CallToolResult.error [.text "boom"], []⟩ :=
  C1_exec_error_no_commit (fun _ => .error "r") ⟨[]⟩ "a" "x" none none ⟨0, 0⟩
    "boom" 1 0 1 rfl (by decide) (by decide) (by decide) (by decide)
    (by decide)

/-- C2 as stated is false: on a successful execution that produced no image
the coordinator returns before the broadcast statement, so no `Updated`
event is sent — here a concrete no-image success run broadcasts nothing. -/
theorem C2_no_broadcast_counterexample :
    (whiteboard (fun _ => .error "unused") ⟨[]⟩ "a" "x = 1" none none ⟨0, 0⟩
      (.ok none "" ⟨0, 1⟩) 0 1).events = []
    ∧ (whiteboard (fun _ => .error "unused") ⟨[]⟩ "a" "x = 1" none none ⟨0, 0⟩
        (.ok none "" ⟨0, 1⟩) 0 1).result.isError = false := by
  exact ⟨rfl, rfl⟩

/-- C2 amended: on a successful no-image execution the coordinator updates
only the board's namespace and `updated_at` (all other fields and all other
boards are untouched, as the `updateBoard` image shows), returns a success
response carrying the human-readable note plus any captured stdout, and
broadcasts nothing. -/
theorem C2_namespace_only_commit
    (render : String → Except String (List Nat)) (st : AppState)
    (name code : String) (width height : Option Nat) (freshNs : PyNamespace)
    (stdout : String) (ns : PyNamespace) (nowCreate now : Timestamp)
    (hname : validate_board_name name = .ok ())
    (hw0 : ¬(width.getD 800 = 0)) (hh0 : ¬(height.getD 600 = 0))
    (hw8 : ¬(width.getD 800 > 8192)) (hh8 : ¬(height.getD 600 > 8192))
    (hcode : ¬(rustLen code > MAX_CODE_LEN)) :
    whiteboard render st name code width height freshNs (.ok none stdout ns)
        nowCreate now
      = ⟨updateBoard
           (get_or_create st name (width.getD 800) (height.getD 600) freshNs
             nowCreate).1
           name (fun b => { b with pyns := ns, updated_at := now }),
         CallToolResult.success
           [.text ("Code executed successfully but svg() was not called.\n"
             ++ (if stdout ≠ "" then "\n--- stdout ---\n" ++ stdout else ""))],
         []⟩ := by
  simp [whiteboard, hname, hw0, hh0, hw8, hh8, hcode]

/-- Witness for C2's amended theorem at concrete inputs. -/
theorem C2_namespace_only_commit_witness :
    whiteboard (fun _ => .error "unused") ⟨[]⟩ "a" "x = 1" none none ⟨0, 0⟩
        (.ok none "out" ⟨0, 1⟩) 0 1
      = ⟨updateBoard (get_or_create ⟨[]⟩ "a" 800 600 ⟨0, 0⟩ 0).1 "a"
           (fun b => { b with pyns := ⟨0, 1⟩, updated_at := 1 }),
         CallToolResult.success
           [.text ("Code executed successfully but svg() was not called.\n"
             ++ "\n--- stdout ---\n" ++ "out")],
         []⟩ := by
  have h := C2_namespace_only_commit (fun _ => .error "unused") ⟨[]⟩ "a" "x = 1"
    none none ⟨0, 0⟩ "out" ⟨0, 1⟩ 0 1 rfl (by decide) (by decide) (by decide)
    (by decide) (by decide)
  simpa using h

/-- The svg stored by a commit. -/
theorem commitBoard_svg (b : Board) (s : String) (p : List Nat)
    (n : PyNamespace) (w h : Nat) (t : Timestamp) :
    (commitBoard b s p n w h t).svg = s := rfl

/-- The png stored by a commit. -/
theorem commitBoard_png (b : Board) (s : String) (p : List Nat)
    (n : PyNamespace) (w h : Nat) (t : Timestamp) :
    (commitBoard b s p n w h t).png = p := rfl

/-- A commit onto a board whose svg is empty pushes no snapshot. -/
theorem commitBoard_history_of_empty (b : Board) (s : String) (p : List Nat)
    (n : PyNamespace) (w h : Nat) (t : Timestamp) (hb : b.svg = "") :
    (commitBoard b s p n w h t).history = b.history := by
  simp [commitBoard, hb]

/-- A commit onto a non-empty board below capacity appends the prior
`(svg, png, updated_at)` snapshot. -/
theorem commitBoard_history_of_nonempty_lt (b : Board) (s : String)
    (p : List Nat) (n : PyNamespace) (w h : Nat) (t : Timestamp)
    (hb : b.svg ≠ "") (hlen : b.history.length < MAX_HISTORY) :
    (commitBoard b s p n w h t).history
      = b.history ++ [⟨b.svg, b.png, b.updated_at⟩] := by
  simp [commitBoard, hb, Nat.not_le.mpr hlen]

/-- A commit onto a non-empty board at capacity evicts the oldest snapshot
and appends the prior one. -/
theorem commitBoard_history_of_nonempty_ge (b : Board) (s : String)
    (p : List Nat) (n : PyNamespace) (w h : Nat) (t : Timestamp)
    (hb : b.svg ≠ "") (hlen : b.history.length ≥ MAX_HISTORY) :
    (commitBoard b s p n w h t).history
      = b.history.drop 1 ++ [⟨b.svg, b.png, b.updated_at⟩] := by
  simp [commitBoard, hb, hlen]

/-- Length evolution of the history under one commit. -/
theorem commitBoard_history_len (b : Board) (s : String) (p : List Nat)
    (n : PyNamespace) (w h : Nat) (t : Timestamp)
    (hb : b.svg ≠ "") (hlen : b.history.length ≤ MAX_HISTORY) :
    (commitBoard b s p n w h t).history.length
      = min (b.history.length + 1) MAX_HISTORY := by
  by_cases hcap : b.history.length ≥ MAX_HISTORY
  · rw [commitBoard_history_of_nonempty_ge b s p n w h t hb hcap,
      List.length_append, List.length_drop]
    simp only [List.length_cons, List.length_nil]
    unfold MAX_HISTORY at *
    omega
  · rw [commitBoard_history_of_nonempty_lt b s p n w h t hb
      (by unfold MAX_HISTORY at *; omega), List.length_append]
    simp only [List.length_cons, List.length_nil]
    unfold MAX_HISTORY at *
    omega

/-- `runCommits` on the empty sequence. -/
theorem runCommits_nil (b : Board) : runCommits b [] = b := rfl

/-- `runCommits` peels one commit. -/
theorem runCommits_cons (b : Board) (a : CommitArgs) (rest : List CommitArgs) :
    runCommits b (a :: rest)
      = runCommits (commitBoard b a.svg a.png a.ns a.w a.h a.now) rest := rfl

/-- History length after a run of commits onto a non-empty board. -/
theorem runCommits_history_len (args : List CommitArgs) (b : Board)
    (hb : b.svg ≠ "") (hargs : ∀ a ∈ args, a.svg ≠ "")
    (hlen : b.history.length ≤ MAX_HISTORY) :
    (runCommits b args).history.length
      = min (b.history.length + args.length) MAX_HISTORY := by
  induction args generalizing b with
  | nil =>
    rw [runCommits_nil]
    simp only [List.length_nil, Nat.add_zero]
    unfold MAX_HISTORY at *
    omega
  | cons a rest ih =>
    have hb1 : (commitBoard b a.svg a.png a.ns a.w a.h a.now).svg ≠ "" := by
      rw [commitBoard_svg]
      exact hargs a (List.mem_cons_self a rest)
    have hL := commitBoard_history_len b a.svg a.png a.ns a.w a.h a.now hb hlen
    have hlen1 :
        (commitBoard b a.svg a.png a.ns a.w a.h a.now).history.length
          ≤ MAX_HISTORY := by
      rw [hL]
      unfold MAX_HISTORY at *
      omega
    rw [runCommits_cons,
      ih _ hb1 (fun x hx => hargs x (List.mem_cons_of_mem a hx)) hlen1, hL,
      List.length_cons]
    unfold MAX_HISTORY at *
    omega

/-- C3: starting from a fresh board, after every prefix of `k` successful
renders the history length is exactly `min (k − 1) 50` (hence always ≤ 50 and
`min (N − 1) 50` after all `N`); a snapshot of the prior
`(svg, png, updated_at)` is pushed only when the current svg is non-empty —
never on the first render — and the oldest snapshot is evicted exactly when
the history is full. -/
theorem C3_history_bound (name : String) (w h : Nat) (ns : PyNamespace)
    (now : Timestamp) (args : List CommitArgs)
    (hsvg : ∀ a ∈ args, a.svg ≠ "") :
    (∀ k, k ≤ args.length →
      (runCommits (freshBoard name w h ns now) (args.take k)).history.length
        = min (k - 1) MAX_HISTORY)
    ∧ (∀ (b : Board) (a : CommitArgs), b.svg = "" →
        (commitBoard b a.svg a.png a.ns a.w a.h a.now).history = b.history)
    ∧ (∀ (b : Board) (a : CommitArgs), b.svg ≠ "" →
        b.history.length < MAX_HISTORY →
        (commitBoard b a.svg a.png a.ns a.w a.h a.now).history
          = b.history ++ [⟨b.svg, b.png, b.updated_at⟩])
    ∧ (∀ (b : Board) (a : CommitArgs), b.svg ≠ "" →
        b.history.length ≥ MAX_HISTORY →
        (commitBoard b a.svg a.png a.ns a.w a.h a.now).history
          = b.history.drop 1 ++ [⟨b.svg, b.png, b.updated_at⟩]) := by
  refine ⟨?_, ?_, ?_, ?_⟩
  · intro k hk
    cases args with
    | nil =>
      have hk0 : k = 0 := by simpa using hk
      subst hk0
      simp [runCommits_nil, freshBoard]
    | cons a rest =>
      cases k with
      | zero => simp [runCommits_nil, freshBoard]
      | succ j =>
        rw [List.take_succ_cons, runCommits_cons]
        have ha : a.svg ≠ "" := hsvg a (List.mem_cons_self a rest)
        have hfresh : (freshBoard name w h ns now).svg = "" := rfl
        set b1 := commitBoard (freshBoard name w h ns now) a.svg a.png a.ns
          a.w a.h a.now with hb1def
        have hsvg1 : b1.svg ≠ "" := by
          rw [hb1def, commitBoard_svg]
          exact ha
        have hhist1 : b1.history = [] := by
          rw [hb1def,
            commitBoard_history_of_empty _ a.svg a.png a.ns a.w a.h a.now hfresh]
          rfl
        have hlen1 : b1.history.length ≤ MAX_HISTORY := by
          rw [hhist1]
          simp
        rw [runCommits_history_len (rest.take j) b1 hsvg1
          (fun x hx => hsvg x (List.mem_cons_of_mem a (List.take_subset j rest hx)))
          hlen1, hhist1]
        have hj : j ≤ rest.length := by simpa using hk
        rw [List.length_take]
        simp only [List.length_nil, Nat.zero_add, Nat.add_sub_cancel]
        unfold MAX_HISTORY at *
        omega
  · intro b a hb
    exact commitBoard_history_of_empty b a.svg a.png a.ns a.w a.h a.now hb
  · intro b a hb hlen
    exact commitBoard_history_of_nonempty_lt b a.svg a.png a.ns a.w a.h a.now
      hb hlen
  · intro b a hb hlen
    exact commitBoard_history_of_nonempty_ge b a.svg a.png a.ns a.w a.h a.now
      hb hlen

/-- Witness for C3 at concrete inputs: two successful renders leave exactly
one snapshot. -/
theorem C3_history_bound_witness :
    (runCommits (freshBoard "hello" 800 600 ⟨0, 0⟩ 0)
      ([⟨"a", [1], ⟨0, 1⟩, 800, 600, 1⟩,
        ⟨"b", [2], ⟨0, 2⟩, 800, 600, 2⟩].take 2)
      ).history.length = min (2 - 1) MAX_HISTORY :=
  (C3_history_bound "hello" 800 600 ⟨0, 0⟩ 0
    [⟨"a", [1], ⟨0, 1⟩, 800, 600, 1⟩, ⟨"b", [2], ⟨0, 2⟩, 800, 600, 2⟩]
    (by decide)).1 2 (by decide)

/-- The empty state satisfies the png/svg invariant. -/
theorem pngSvgInv_nil : pngSvgInv ⟨[]⟩ := by
  intro p hp
  simp at hp

/-- Inserting a board that satisfies the png/svg property preserves the
invariant. -/
theorem pngSvgInv_insertBoard (st : AppState) (name : String) (b : Board)
    (hst : pngSvgInv st) (hb : b.png = [] ↔ b.svg = "") :
    pngSvgInv (insertBoard st name b) := by
  intro p hp
  simp only [insertBoard, List.mem_append, List.mem_singleton] at hp
  rcases hp with h | h
  · exact hst p h
  · rw [h]
    exact hb

/-- Updating one board with a property-preserving function preserves the
invariant. -/
theorem pngSvgInv_updateBoard (st : AppState) (name : String)
    (f : Board → Board) (hst : pngSvgInv st)
    (hf : ∀ b : Board, (b.png = [] ↔ b.svg = "")
      → ((f b).png = [] ↔ (f b).svg = "")) :
    pngSvgInv (updateBoard st name f) := by
  intro p hp
  simp only [updateBoard, List.mem_map] at hp
  obtain ⟨q, hq, hpq⟩ := hp
  by_cases h : q.1 = name
  · rw [← hpq, if_pos h]
    exact hf q.2 (hst q hq)
  · rw [← hpq, if_neg h]
    exact hst q hq

/-- Get-or-create preserves the invariant: the inserted placeholder has both
svg and png empty. -/
theorem pngSvgInv_get_or_create (st : AppState) (name : String) (w h : Nat)
    (ns : PyNamespace) (now : Timestamp) (hst : pngSvgInv st) :
    pngSvgInv (get_or_create st name w h ns now).1 := by
  unfold get_or_create
  cases hfind : findBoard st name with
  | some b => simpa using hst
  | none =>
    simpa using pngSvgInv_insertBoard st name _ hst (by simp [freshBoard])

/-- C4: the invariant `png.is_empty() ⇔ svg.is_empty()` holds of the initial
empty map and is preserved by every `whiteboard` call — covering board
creation, image commits and namespace-only commits — provided the renderer
only succeeds on a non-empty svg and returns non-empty PNG bytes (true of
`svg_to_png`: an empty string is a parse error and a successful encode
always begins with the PNG signature). -/
theorem C4_png_iff_svg_empty
    (render : String → Except String (List Nat))
    (hrender : ∀ s b, render s = .ok b → s ≠ "" ∧ b ≠ [])
    (st : AppState) (name code : String) (width height : Option Nat)
    (freshNs : PyNamespace) (exec : ExecOutcome) (nowCreate now : Timestamp) :
    pngSvgInv (⟨[]⟩ : AppState)
    ∧ (pngSvgInv st →
        pngSvgInv (whiteboard render st name code width height freshNs exec
          nowCreate now).state) := by
  refine ⟨pngSvgInv_nil, fun hst => ?_⟩
  unfold whiteboard
  split
  · simpa using hst
  · dsimp only
    by_cases h0 :
        (decide (width.getD 800 = 0) || decide (height.getD 600 = 0)) = true
    · rw [if_pos h0]
      simpa using hst
    · rw [if_neg h0]
      by_cases h8 :
          (decide (width.getD 800 > 8192)
            || decide (height.getD 600 > 8192)) = true
      · rw [if_pos h8]
        simpa using hst
      · rw [if_neg h8]
        by_cases hc : rustLen code > MAX_CODE_LEN
        · rw [if_pos hc]
          simpa using hst
        · rw [if_neg hc]
          cases exec with
          | err e k =>
            simpa using
              pngSvgInv_updateBoard
                (get_or_create st name (width.getD 800) (height.getD 600)
                  freshNs nowCreate).1 name _
                (pngSvgInv_get_or_create st name (width.getD 800)
                  (height.getD 600) freshNs nowCreate hst)
                (fun b hb => by simpa using hb)
          | ok svgOpt stdout ns =>
            cases svgOpt with
            | none =>
              simpa using
                pngSvgInv_updateBoard
                  (get_or_create st name (width.getD 800) (height.getD 600)
                    freshNs nowCreate).1 name _
                  (pngSvgInv_get_or_create st name (width.getD 800)
                    (height.getD 600) freshNs nowCreate hst)
                  (fun b hb => by simpa using hb)
            | some svg_content =>
              cases hr : render svg_content with
              | error e =>
                dsimp only
                rw [hr]
                simpa using
                  pngSvgInv_updateBoard
                    (get_or_create st name (width.getD 800) (height.getD 600)
                      freshNs nowCreate).1 name _
                    (pngSvgInv_get_or_create st name (width.getD 800)
                      (height.getD 600) freshNs nowCreate hst)
                    (fun b hb => by simpa using hb)
              | ok png_bytes =>
                have hsb := hrender svg_content png_bytes hr
                dsimp only
                rw [hr]
                simpa using
                  pngSvgInv_updateBoard
                    (get_or_create st name (width.getD 800) (height.getD 600)
                      freshNs nowCreate).1 name _
                    (pngSvgInv_get_or_create st name (width.getD 800)
                      (height.getD 600) freshNs nowCreate hst)
                    (fun b hb => by
                      rw [commitBoard_png, commitBoard_svg]
                      exact iff_of_false hsb.2 hsb.1)

/-- Witness for C4 at concrete inputs: a full successful-render call on the
empty state keeps the invariant. -/
theorem C4_png_iff_svg_empty_witness :
    pngSvgInv (whiteboard
      (fun s => if s = "" then .error "e" else .ok [137, 80, 78, 71])
      ⟨[]⟩ "a" "c" none none ⟨0, 0⟩ (.ok (some "<svg/>") "" ⟨0, 1⟩) 0 1).state :=
  (C4_png_iff_svg_empty
    (fun s => if s = "" then .error "e" else .ok [137, 80, 78, 71])
    (fun s b h => by
      by_cases hs : s = ""
      · simp [hs] at h
      · refine ⟨hs, ?_⟩
        simp [hs] at h
        rw [← h]
        simp)
    ⟨[]⟩ "a" "c" none none ⟨0, 0⟩ (.ok (some "<svg/>") "" ⟨0, 1⟩) 0 1).2
    pngSvgInv_nil

/-- Looking up a freshly inserted board finds it. -/
theorem findBoard_insertBoard_self (st : AppState) (name : String) (b : Board)
    (h : findBoard st name = none) :
    findBoard (insertBoard st name b) name = some b := by
  have hfind : st.boards.find? (fun p => p.1 = name) = none := by
    unfold findBoard at h
    exact Option.map_eq_none.mp h
  unfold findBoard insertBoard
  simp [List.find?_append, hfind]

/-- Looking up the updated key after `updateBoard` sees the update applied. -/
theorem findBoard_updateBoard (st : AppState) (name : String)
    (f : Board → Board) :
    findBoard (updateBoard st name f) name = (findBoard st name).map f := by
  unfold findBoard updateBoard
  induction st.boards with
  | nil => rfl
  | cons hd tl ih =>
    by_cases h : hd.1 = name
    · simp [List.find?_cons, h]
    · simpa [List.find?_cons, h] using ih

/-- Every board in the map contributes its text block to `whiteboard_list`'s
response. -/
theorem boardInfo_mem_whiteboard_list (st : AppState) (name : String)
    (b : Board) (h : findBoard st name = some b) :
    Content.text (boardInfo b) ∈ (whiteboard_list st).content := by
  obtain ⟨p, hp, hpb⟩ : ∃ p ∈ st.boards, p.2 = b := by
    unfold findBoard at h
    obtain ⟨p, hfind, hpb⟩ := Option.map_eq_some.mp h
    exact ⟨p, List.mem_of_find?_eq_some hfind, hpb⟩
  have hne : st.boards.isEmpty = false := by
    cases hb : st.boards with
    | nil => rw [hb] at hp; simp at hp
    | cons x l => simp
  unfold whiteboard_list
  rw [if_neg (by simp [hne])]
  show Content.text (boardInfo b) ∈ List.flatMap _ _
  rw [List.mem_flatMap]
  refine ⟨b, ?_, by simp⟩
  rw [List.mem_mergeSort]
  exact hpb ▸ List.mem_map_of_mem (·.2) hp

/-- C10: a `whiteboard` call naming an unknown board inserts a placeholder
with empty svg, png and history before the script runs; when execution then
fails, that record is still in the map — same handle, empty svg, png and
history, its namespace contents being whatever the partial execution left in
the shared dict — its text block appears in `whiteboard_list`, and no event
of any kind is broadcast. -/
theorem C10_placeholder_survives_exec_error
    (render : String → Except String (List Nat)) (st : AppState)
    (name code : String) (width height : Option Nat) (freshNs : PyNamespace)
    (e : String) (k : Nat) (nowCreate now : Timestamp)
    (hmiss : findBoard st name = none)
    (hname : validate_board_name name = .ok ())
    (hw0 : ¬(width.getD 800 = 0)) (hh0 : ¬(height.getD 600 = 0))
    (hw8 : ¬(width.getD 800 > 8192)) (hh8 : ¬(height.getD 600 > 8192))
    (hcode : ¬(rustLen code > MAX_CODE_LEN)) :
    ((freshBoard name (width.getD 800) (height.getD 600)
        ⟨freshNs.id, k⟩ nowCreate).svg = ""
      ∧ (freshBoard name (width.getD 800) (height.getD 600)
          ⟨freshNs.id, k⟩ nowCreate).png = []
      ∧ (freshBoard name (width.getD 800) (height.getD 600)
          ⟨freshNs.id, k⟩ nowCreate).history = [])
    ∧ findBoard (whiteboard render st name code width height freshNs
          (.err e k) nowCreate now).state name
        = some (freshBoard name (width.getD 800) (height.getD 600)
            ⟨freshNs.id, k⟩ nowCreate)
    ∧ (whiteboard render st name code width height freshNs (.err e k)
        nowCreate now).events = []
    ∧ Content.text (boardInfo (freshBoard name (width.getD 800)
          (height.getD 600) ⟨freshNs.id, k⟩ nowCreate))
        ∈ (whiteboard_list (whiteboard render st name code width height
            freshNs (.err e k) nowCreate now).state).content := by
  have hred := whiteboard_exec_err render st name code width height freshNs e
    k nowCreate now hname hw0 hh0 hw8 hh8 hcode
  have hgoc : (get_or_create st name (width.getD 800) (height.getD 600)
      freshNs nowCreate).1
      = insertBoard st name (freshBoard name (width.getD 800)
          (height.getD 600) freshNs nowCreate) := by
    unfold get_or_create
    rw [hmiss]
  have hfound : findBoard (whiteboard render st name code width height freshNs
      (.err e k) nowCreate now).state name
      = some (freshBoard name (width.getD 800) (height.getD 600)
          ⟨freshNs.id, k⟩ nowCreate) := by
    rw [hred]
    show findBoard (updateBoard (get_or_create st name (width.getD 800)
      (height.getD 600) freshNs nowCreate).1 name _) name = _
    rw [findBoard_updateBoard, hgoc,
      findBoard_insertBoard_self st name _ hmiss]
    rfl
  refine ⟨⟨rfl, rfl, rfl⟩, hfound, ?_, ?_⟩
  · rw [hred]
  · exact boardInfo_mem_whiteboard_list _ name _ hfound

/-- Witness for C10 at concrete inputs. -/
theorem C10_placeholder_survives_exec_error_witness :
    findBoard (whiteboard (fun _ => .error "r") ⟨[]⟩ "a" "x" none none ⟨7, 0⟩
        (.err "boom" 1) 0 1).state "a"
      = some (freshBoard "a" 800 600 ⟨7, 1⟩ 0)
    ∧ (whiteboard (fun _ => .error "r") ⟨[]⟩ "a" "x" none none ⟨7, 0⟩
        (.err "boom" 1) 0 1).events = [] := by
  have h := C10_placeholder_survives_exec_error (fun _ => .error "r") ⟨[]⟩
    "a" "x" none none ⟨7, 0⟩ "boom" 1 0 1 rfl rfl (by decide) (by decide)
    (by decide) (by decide) (by decide)
  exact ⟨h.2.1, h.2.2.1⟩

end Scry
